import Mathlib

/-! OpenRQ storage layer: a shallow embedding of `datacontext.cpp` and `project.cpp`.

The development has three layers.

* A small relational store (`Value`, `Table`, `Store`, `Stmt`, `Store.execute`) giving a
  meaning to the SQL statements that the program sends to SQLite.
* The part of Qt the program relies on (`QSqlDatabase`, `QSqlQuery`, `QVariant`, the `QString`
  helpers), together with the `World` the program runs in: the file system, the set of
  installed SQL drivers, the random generator, and an oracle of external statement failures.
* The program itself: `DataContext.new` (the constructor), `DataContext.create`,
  `DataContext.updateItem`, `uidExists`, `DataContext.getItemUid` and `Project.new`.

Theorems about the program follow the definitions.
-/

set_option autoImplicit false

namespace orq

/-! ## Relational store -/

/-- A value stored in a column, or bound to a placeholder of a statement. -/
inductive Value where
  | null
  | int (i : Int)
  | text (s : String)
  | blob (bytes : List Nat)
  deriving DecidableEq, Repr

/-- The `default` clause of a column definition. -/
inductive DefaultValue where
  | literal (v : Value)
  | currentTimestamp
  deriving DecidableEq, Repr

/-- One column of a `create table` statement. -/
structure Column where
  name : String
  type : String
  primaryKey : Bool
  notNull : Bool
  dflt : Option DefaultValue
  deriving DecidableEq, Repr

/-- A clause `foreign key(column) references refTable(refColumn)`. SQLite records the clause
but does not enforce it unless `PRAGMA foreign_keys` is switched on, which the program never
does; the store therefore keeps the clause as schema data only. -/
structure ForeignKey where
  column : String
  refTable : String
  refColumn : String
  deriving DecidableEq, Repr

/-- A row: the value of each column, by column name. -/
abbrev Row := List (String × Value)

/-- A table with its schema and rows. -/
structure Table where
  name : String
  columns : List Column
  foreignKeys : List ForeignKey
  rows : List Row
  deriving DecidableEq, Repr

/-- The content of a database file. -/
structure Store where
  tables : List Table
  deriving DecidableEq, Repr

/-- The SQL statements issued by the program. `conds` is a conjunction of `column = value`
tests. `malformed` stands for a text that SQLite cannot prepare. -/
inductive Stmt where
  | createTable (name : String) (columns : List Column) (foreignKeys : List ForeignKey)
  | insert (table : String) (columns : List String) (values : List Value)
  | update (table : String) (sets : List (String × Value)) (conds : List (String × Value))
  | select (table : String) (conds : List (String × Value)) (orderDesc : Option String)
  | countUnion (column : String) (table1 table2 : String) (value : Value)
  | malformed (sql : String)
  deriving DecidableEq, Repr

/-- Value of a column in a row; a column absent from the row reads as `null`. -/
def Row.get (r : Row) (column : String) : Value :=
  (r.lookup column).getD Value.null

/-- The SQL test `column = value`: never true when either side is `null`. -/
def Row.satisfies (r : Row) (cond : String × Value) : Bool :=
  decide (r.get cond.1 = cond.2) && decide (cond.2 ≠ Value.null)

/-- A row matches a `where` clause when it satisfies every test. -/
def Row.matches (r : Row) (conds : List (String × Value)) : Bool :=
  conds.all r.satisfies

def Table.columnNames (t : Table) : List String :=
  t.columns.map Column.name

/-- The table has every one of the named columns. Column names are compared as written: the
statements of the program spell them as its own schema does. -/
def Table.hasColumns (t : Table) (names : List String) : Bool :=
  names.all (fun n => t.columnNames.contains n)

/-- Two table names denote the same table: SQLite compares them without regard to the case of
ASCII letters. -/
def Store.sameName (a b : String) : Bool :=
  decide (a.data.map Char.toLower = b.data.map Char.toLower)

def Store.find (s : Store) (name : String) : Option Table :=
  s.tables.find? (fun t => Store.sameName t.name name)

/-- Replace the table called `t.name` by `t`. -/
def Store.replace (s : Store) (t : Table) : Store :=
  { tables := s.tables.map (fun u => if Store.sameName u.name t.name then t else u) }

def Value.toInt? : Value → Option Int
  | Value.int i => some i
  | _ => none

/-- The next row id SQLite assigns to an `integer primary key` column:
one more than the largest id in use, `1` for an empty table. (The case of a largest id of
`2 ^ 63 - 1`, where SQLite looks for an unused id at random, is left out.) -/
def Table.nextId (t : Table) (key : String) : Int :=
  match t.rows.filterMap (fun r => (r.get key).toInt?) with
  | [] => 1
  | x :: xs => xs.foldl max x + 1

def Column.defaultValue (c : Column) (now : String) : Value :=
  match c.dflt with
  | none => Value.null
  | some (DefaultValue.literal v) => v
  | some DefaultValue.currentTimestamp => Value.text now

/-- The row built by `insert into t (columns) values (values)`. -/
def Table.newRow (t : Table) (now : String) (columns : List String) (values : List Value) : Row :=
  t.columns.map (fun c =>
    (c.name,
      match (columns.zip values).lookup c.name with
      | some v => v
      | none => if c.primaryKey then Value.int (t.nextId c.name) else c.defaultValue now))

/-- A row violates a `not null` constraint. -/
def Table.violatesNotNull (t : Table) (r : Row) : Bool :=
  t.columns.any (fun c => c.notNull && decide (r.get c.name = Value.null))

/-- The row after `update ... set sets`: each column of the table takes the new value when
`sets` names it and keeps its value otherwise. -/
def Table.updatedRow (t : Table) (sets : List (String × Value)) (r : Row) : Row :=
  t.columns.map (fun c =>
    (c.name,
      match sets.lookup c.name with
      | some v => v
      | none => r.get c.name))

/-- Order used by `order by column desc` (integers only; other values keep their place). -/
def Row.geOn (column : String) (a b : Row) : Prop :=
  match (a.get column).toInt?, (b.get column).toInt? with
  | some x, some y => y ≤ x
  | _, _ => True

instance (column : String) : DecidableRel (Row.geOn column) := fun a b => by
  unfold Row.geOn
  cases (a.get column).toInt? <;> cases (b.get column).toInt? <;> infer_instance

/-- Execute one statement. `none` is an SQL error (the store is then unchanged); otherwise the
new store and the result rows. -/
def Store.execute (s : Store) (now : String) : Stmt → Option (Store × List Row)
  | Stmt.createTable name columns foreignKeys =>
    match s.find name with
    | some _ => none
    | none =>
      some ({ tables := s.tables ++
        [{ name := name, columns := columns, foreignKeys := foreignKeys, rows := [] }] }, [])
  | Stmt.insert table columns values =>
    match s.find table with
    | none => none
    | some t =>
      if t.hasColumns columns && decide (columns.length = values.length) then
        let r := t.newRow now columns values
        if t.violatesNotNull r then none
        else some (s.replace { t with rows := t.rows ++ [r] }, [])
      else none
  | Stmt.update table sets conds =>
    match s.find table with
    | none => none
    | some t =>
      if t.hasColumns (sets.map Prod.fst) && t.hasColumns (conds.map Prod.fst) then
        some (s.replace
          { t with rows := t.rows.map (fun r => if r.matches conds then t.updatedRow sets r else r) },
          [])
      else none
  | Stmt.select table conds orderDesc =>
    match s.find table with
    | none => none
    | some t =>
      if t.hasColumns (conds.map Prod.fst) then
        let rows := t.rows.filter (fun r => r.matches conds)
        match orderDesc with
        | none => some (s, rows)
        | some c =>
          if t.hasColumns [c] then some (s, rows.insertionSort (Row.geOn c)) else none
      else none
  | Stmt.countUnion column table1 table2 value =>
    match s.find table1, s.find table2 with
    | some t1, some t2 =>
      if t1.hasColumns [column] && t2.hasColumns [column] then
        let union := ((t1.rows.map (fun r => r.get column)) ++
          (t2.rows.map (fun r => r.get column))).dedup
        some (s, [[("count(*)",
          Value.int ((union.filter (fun v => decide (v = value) && decide (value ≠ Value.null))).length))]])
      else none
    | _, _ => none
  | Stmt.malformed _ => none

/-! ## The world outside the program -/

/-- What the program does to the outside, in order. -/
inductive Event where
  | critical (message : String)
  | addDatabase (type : String)
  | openDatabase (path : String) (ok : Bool)
  | exec (stmt : Stmt) (ok : Bool)
  deriving DecidableEq, Repr

/-- The environment of a run.

* `drivers name`: whether Qt has an SQL driver registered under `name`.
* `files path`: the database stored in the file at `path`, `none` when there is no such file.
* `canOpen path`: whether the file system lets the file be opened or created.
* `faults`: one entry per statement still to be executed on an open connection; `true` makes
  that statement fail for a reason outside the store (I/O error, lock, full disk). Past the end
  of the list nothing fails.
* `now`: the text `current_timestamp` evaluates to.
* `random`, `drawn`: the values `QRandomGenerator::global()` yields, and how many were drawn.
* `trace`: the events so far, oldest first. -/
structure World where
  drivers : String → Bool
  files : String → Option Store
  canOpen : String → Bool
  faults : List Bool
  now : String
  random : Nat → Nat
  drawn : Nat
  trace : List Event

def World.record (w : World) (e : Event) : World :=
  { w with trace := w.trace ++ [e] }

/-- Write the store of the file at `path`. -/
def World.setFile (w : World) (path : String) (s : Store) : World :=
  { w with files := fun p => if p = path then some s else w.files p }

/-! ## Qt -/

/-- The function `QString::endsWith` (case sensitive). -/
def QString.endsWith (s ending : String) : Bool :=
  ending.data.isSuffixOf s.data

/-- The function `QString::contains` for a one-character needle. -/
def QString.contains (s : String) (c : Char) : Bool :=
  s.data.contains c

/-- Scan for the last occurrence of `c`: `i` is the index of the head of the list, `found`
the last index seen so far. -/
def QString.lastIndexOfFrom (c : Char) : List Char → Int → Int → Int
  | [], _, found => found
  | x :: xs, i, found => QString.lastIndexOfFrom c xs (i + 1) (if x = c then i else found)

/-- The function `QString::lastIndexOf` for a one-character needle; `-1` when absent. -/
def QString.lastIndexOf (s : String) (c : Char) : Int :=
  QString.lastIndexOfFrom c s.data 0 (-1)

/-- The function `QString::left`: the first `n` characters, and the whole string when `n` is
negative or not smaller than the size. -/
def QString.left (s : String) (n : Int) : String :=
  if n < 0 ∨ (s.data.length : Int) ≤ n then s else String.mk (s.data.take n.toNat)

/-- The function `QFileInfo::fileName`: the path without its directory part, that is what
follows the last `/`. -/
def QFileInfo.fileName (path : String) : String :=
  String.mk (path.data.drop (QString.lastIndexOf path '/' + 1).toNat)

/-- A connection handle (`QSqlDatabase`). -/
structure QSqlDatabase where
  driverName : String
  valid : Bool
  databaseName : String
  opened : Bool
  deriving DecidableEq, Repr

/-- The default-constructed, invalid handle. -/
def QSqlDatabase.invalid : QSqlDatabase :=
  { driverName := "", valid := false, databaseName := "", opened := false }

def QSqlDatabase.isDriverAvailable (w : World) (name : String) : Bool :=
  w.drivers name

/-- The function `QSqlDatabase::addDatabase`: register a connection of the given driver type.
The handle is valid only when that driver is installed. -/
def QSqlDatabase.addDatabase (w : World) (type : String) : QSqlDatabase × World :=
  ({ driverName := type, valid := w.drivers type, databaseName := "", opened := false },
    w.record (Event.addDatabase type))

def QSqlDatabase.setDatabaseName (db : QSqlDatabase) (name : String) : QSqlDatabase :=
  { db with databaseName := name }

/-- The function `QSqlDatabase::open`. SQLite creates the file, empty, when it is missing. -/
def QSqlDatabase.open (db : QSqlDatabase) (w : World) : QSqlDatabase × World :=
  if db.valid && w.canOpen db.databaseName then
    ({ db with opened := true },
      (w.setFile db.databaseName ((w.files db.databaseName).getD { tables := [] })).record
        (Event.openDatabase db.databaseName true))
  else
    ({ db with opened := false }, w.record (Event.openDatabase db.databaseName false))

def QSqlDatabase.isOpen (db : QSqlDatabase) : Bool :=
  db.opened

/-- A query object (`QSqlQuery`) after its last `exec`: whether it is active, the result rows,
and the cursor. The cursor is a row index, or `QSql::BeforeFirstRow = -1`, or
`QSql::AfterLastRow = -2`. -/
structure QSqlQuery where
  active : Bool
  rows : List Row
  position : Int
  deriving DecidableEq, Repr

/-- A freshly constructed query: `QSqlQuery query(database)`. -/
def QSqlQuery.new : QSqlQuery :=
  { active := false, rows := [], position := -1 }

/-- Run a statement on the connection: the result rows on success, and the world after. -/
def World.run (w : World) (db : QSqlDatabase) (stmt : Stmt) : Option (List Row) × World :=
  if db.opened then
    match w.faults with
    | true :: rest => (none, { w with faults := rest })
    | _ =>
      match w.files db.databaseName with
      | none => (none, { w with faults := w.faults.tail })
      | some s =>
        match s.execute w.now stmt with
        | none => (none, { w with faults := w.faults.tail })
        | some (s', rows) => (some rows, { w with faults := w.faults.tail }.setFile db.databaseName s')
  else (none, w)

/-- The function `QSqlQuery::exec` (with `prepare` and `bindValue` folded into the statement).
Its boolean result is the `active` flag of the query it returns. After `exec` the cursor is
before the first row: no record is current until `next` is called. -/
def QSqlQuery.exec (db : QSqlDatabase) (w : World) (stmt : Stmt) : QSqlQuery × World :=
  match w.run db stmt with
  | (some rows, w1) =>
    ({ active := true, rows := rows, position := -1 }, w1.record (Event.exec stmt true))
  | (none, w1) =>
    ({ active := false, rows := [], position := -1 }, w1.record (Event.exec stmt false))

/-- The function `QSqlQuery::next`: move to the next row; `false` when there is none. -/
def QSqlQuery.next (q : QSqlQuery) : Bool × QSqlQuery :=
  if q.active then
    if q.position = -2 then (false, q)
    else if q.position + 1 < q.rows.length then (true, { q with position := q.position + 1 })
    else (false, { q with position := -2 })
  else (false, q)

/-- A `QVariant`: invalid, or holding a value. -/
inductive QVariant where
  | invalid
  | value (v : Value)
  deriving DecidableEq, Repr

/-- The function `QSqlQuery::value`: the field at `index` of the current record. The variant is
invalid when the query is inactive, when the cursor is not on a record, or when the record has
no such field. -/
def QSqlQuery.value (q : QSqlQuery) (index : Nat) : QVariant :=
  if q.active && decide (0 ≤ q.position) then
    match q.rows.get? q.position.toNat with
    | none => QVariant.invalid
    | some r =>
      match r.get? index with
      | none => QVariant.invalid
      | some f => QVariant.value f.2
  else QVariant.invalid

/-- Conversion to a C++ `int`: wrap into 32 bits, two's complement. -/
def toInt32 (i : Int) : Int :=
  (i + 2 ^ 31) % 2 ^ 32 - 2 ^ 31

/-- The function `QVariant::toInt`: `0` for an invalid variant and for what is not a number. -/
def QVariant.toInt : QVariant → Int
  | QVariant.value (Value.int i) => toInt32 i
  | QVariant.value (Value.text s) => toInt32 (s.toInt?.getD 0)
  | _ => 0

/-- The expression `static_cast<qint64>(x)` for an unsigned 64-bit `x`. -/
def toQint64 (n : Nat) : Int :=
  if n % 2 ^ 64 < 2 ^ 63 then (n % 2 ^ 64 : Nat) else ((n % 2 ^ 64 : Nat) : Int) - 2 ^ 64

/-- The call `QRandomGenerator::global()->generate64()`. -/
def World.generate64 (w : World) : Nat × World :=
  (w.random w.drawn % 2 ^ 64, { w with drawn := w.drawn + 1 })

/-- The function `QSqlQuery::value` by field name. -/
def QSqlQuery.valueOf (q : QSqlQuery) (name : String) : QVariant :=
  if q.active && decide (0 ≤ q.position) then
    match q.rows.get? q.position.toNat with
    | none => QVariant.invalid
    | some r =>
      match r.lookup name with
      | none => QVariant.invalid
      | some v => QVariant.value v
  else QVariant.invalid

/-- The function `QVariant::toLongLong`, without the wrap of `toInt`. -/
def QVariant.toLongLong : QVariant → Int
  | QVariant.value (Value.int i) => i
  | QVariant.value (Value.text s) => s.toInt?.getD 0
  | _ => 0

/-- The function `QVariant::toString`: empty for an invalid variant. -/
def QVariant.toQString : QVariant → String
  | QVariant.value (Value.text s) => s
  | QVariant.value (Value.int i) => toString i
  | _ => ""

/-! ## Items -/

/-- Modelled from the spec: the type tag of an item (the enumeration is declared in a header
that is not part of the sources at hand). -/
inductive ItemType where
  | TypeRequirement
  | TypeSolution
  deriving DecidableEq, Repr

/-- Modelled from the spec: a Requirement, with the fields common to all items (`id`, `uid`,
`parent`, `label`) and `description`, `rationale`, `fitCriterion` (class declared in a header
that is not part of the sources at hand). -/
structure Requirement where
  id : Int
  uid : Int
  parent : Int
  label : Int
  description : String
  rationale : String
  fitCriterion : String
  deriving DecidableEq, Repr

/-- Modelled from the spec: a Solution, with the fields common to all items and `description`,
`link` (class declared in a header that is not part of the sources at hand). -/
structure Solution where
  id : Int
  uid : Int
  parent : Int
  label : Int
  description : String
  link : String
  deriving DecidableEq, Repr

/-- Modelled from the spec: an item is a Requirement or a Solution; this is the dynamic type
that `typeid` and `dynamic_cast` inspect. -/
inductive Item where
  | requirement (r : Requirement)
  | solution (s : Solution)
  deriving DecidableEq, Repr

def Item.id : Item → Int
  | Item.requirement r => r.id
  | Item.solution s => s.id

/-- The test `typeid(item) == typeid(Requirement)`. -/
def Item.isRequirement : Item → Bool
  | Item.requirement _ => true
  | Item.solution _ => false

/-- The expression `dynamic_cast<Requirement&>(item)`; `none` stands for `std::bad_cast`. -/
def Item.castRequirement : Item → Option Requirement
  | Item.requirement r => some r
  | Item.solution _ => none

/-- Modelled from the spec: the constructor `Requirement(query)`, which reads every field of
the current record by name (defined in a source file that is not at hand). -/
def Requirement.ofQuery (q : QSqlQuery) : Requirement :=
  { id := (q.valueOf "id").toInt
    uid := (q.valueOf "uid").toLongLong
    parent := (q.valueOf "parent").toInt
    label := (q.valueOf "label").toInt
    description := (q.valueOf "description").toQString
    rationale := (q.valueOf "rationale").toQString
    fitCriterion := (q.valueOf "fitCriterion").toQString }

/-! ## The statements of `datacontext.cpp` -/

def Column.plain (name type : String) : Column :=
  { name := name, type := type, primaryKey := false, notNull := false, dflt := none }

/-- The column `id integer primary key`. -/
def Column.key : Column :=
  { name := "id", type := "integer", primaryKey := true, notNull := false, dflt := none }

def sqlCreateInfo : Stmt :=
  Stmt.createTable "Info"
    [ Column.key,
      { name := "version", type := "integer", primaryKey := false, notNull := false,
        dflt := some (DefaultValue.literal (Value.int 1)) },
      Column.plain "name" "text",
      { name := "created", type := "integer", primaryKey := false, notNull := false,
        dflt := some DefaultValue.currentTimestamp } ]
    []

def sqlCreateSolutions : Stmt :=
  Stmt.createTable "Solutions"
    [ Column.key, Column.plain "uid" "integer", Column.plain "parent" "integer",
      Column.plain "label" "integer", Column.plain "description" "text",
      Column.plain "link" "text" ]
    [ { column := "parent", refTable := "Requirements", refColumn := "id" },
      { column := "label", refTable := "Labels", refColumn := "id" } ]

def sqlCreateProjects : Stmt :=
  Stmt.createTable "Projects"
    [ Column.key, Column.plain "name" "text",
      { name := "created", type := "integer", primaryKey := false, notNull := false,
        dflt := some DefaultValue.currentTimestamp } ]
    []

def sqlCreateItemVersions : Stmt :=
  Stmt.createTable "ItemVersions"
    [ Column.key, Column.plain "version" "integer", Column.plain "item" "integer",
      { name := "itemV", type := "integer", primaryKey := false, notNull := false,
        dflt := some (DefaultValue.literal (Value.int 1)) },
      Column.plain "type" "integer" ]
    [ { column := "version", refTable := "Projects", refColumn := "id" } ]

def sqlCreateRequirements : Stmt :=
  Stmt.createTable "Requirements"
    [ Column.key, Column.plain "uid" "integer", Column.plain "parent" "integer",
      Column.plain "label" "integer", Column.plain "description" "text",
      Column.plain "rationale" "text", Column.plain "fitCriterion" "text" ]
    [ { column := "parent", refTable := "Solutions", refColumn := "id" },
      { column := "label", refTable := "Labels", refColumn := "id" } ]

def sqlCreateLabelItems : Stmt :=
  Stmt.createTable "LabelItems"
    [ Column.key, Column.plain "label" "integer", Column.plain "item" "integer",
      Column.plain "type" "integer" ]
    [ { column := "label", refTable := "Labels", refColumn := "id" } ]

def sqlCreateMedia : Stmt :=
  Stmt.createTable "Media"
    [ Column.key,
      { name := "parent", type := "int", primaryKey := false, notNull := true, dflt := none },
      { name := "format", type := "text", primaryKey := false, notNull := false,
        dflt := some (DefaultValue.literal (Value.text "webp")) },
      Column.plain "data" "blob" ]
    [ { column := "parent", refTable := "Solutions", refColumn := "id" } ]

def sqlCreateLabels : Stmt :=
  Stmt.createTable "Labels"
    [ Column.key, Column.plain "tag" "text", Column.plain "color" "integer" ]
    []

/-- The statement `insert into Info (name) values (:name)`. -/
def sqlInsertInfo (projectName : String) : Stmt :=
  Stmt.insert "Info" ["name"] [Value.text projectName]

/-- The statement `select * from ItemVersions where version = :version and item = :item`. -/
def sqlPendingVersion (projectVersion itemId : Int) : Stmt :=
  Stmt.select "ItemVersions"
    [("version", Value.int projectVersion), ("item", Value.int itemId)] none

/-- The statement `update Requirements set description = :description, rationale = :rationale,
fitCriterion = :fitCriterion`. It has no `where` clause. -/
def sqlUpdateRequirement (req : Requirement) : Stmt :=
  Stmt.update "Requirements"
    [ ("description", Value.text req.description),
      ("rationale", Value.text req.rationale),
      ("fitCriterion", Value.text req.fitCriterion) ]
    []

/-- The text `select * from :table where id = :id`: a table name cannot be a bound parameter,
so SQLite rejects the statement. -/
def sqlSelectById : Stmt :=
  Stmt.malformed "select * from :table where id = :id"

/-- The statement `insert into Requirements (description, rationale, fitCriterion) values
(:description, :rationale, :fitCriterion)`. -/
def sqlInsertRequirement (req : Requirement) : Stmt :=
  Stmt.insert "Requirements" ["description", "rationale", "fitCriterion"]
    [Value.text req.description, Value.text req.rationale, Value.text req.fitCriterion]

/-- The statement `select * from Requirements order by id desc`. -/
def sqlLatestRequirement : Stmt :=
  Stmt.select "Requirements" [] (some "id")

/-- The statement `select count(*) from (select uid from Requirements union select uid from
Solutions) where uid = :uid`. -/
def sqlCountUid (uid : Int) : Stmt :=
  Stmt.countUnion "uid" "Requirements" "Solutions" (Value.int uid)

/-! ## The program -/

/-- The object built by the constructor: its only data member is the connection handle. The
store itself lives in the file, that is in the `World`. -/
structure DataContext where
  database : QSqlDatabase
  deriving DecidableEq, Repr

/-- The function `DataContext::create`: eight `create table` statements and the insertion of
the Info row, each checked; the first failure is logged and ends the function. -/
def DataContext.create (self : DataContext) (w : World) (projectName : String) : Bool × World :=
  -- Create Info table
  let (query, w) := QSqlQuery.exec self.database w sqlCreateInfo
  if !query.active then
    (false, w.record (Event.critical "database error: failed to create Info table"))
  else
  -- Create Solutions table
  let (query, w) := QSqlQuery.exec self.database w sqlCreateSolutions
  if !query.active then
    (false, w.record (Event.critical "database error: failed to create Solutions table"))
  else
  -- Create Projects table
  let (query, w) := QSqlQuery.exec self.database w sqlCreateProjects
  if !query.active then
    (false, w.record (Event.critical "database error: failed to create Projects table"))
  else
  -- Create ItemVersions table
  let (query, w) := QSqlQuery.exec self.database w sqlCreateItemVersions
  if !query.active then
    (false, w.record (Event.critical "database error: failed to create ItemVersions table"))
  else
  -- Create Requirements table
  let (query, w) := QSqlQuery.exec self.database w sqlCreateRequirements
  if !query.active then
    (false, w.record (Event.critical "database error: failed to create Requirements table"))
  else
  -- Create LabelItems table
  let (query, w) := QSqlQuery.exec self.database w sqlCreateLabelItems
  if !query.active then
    (false, w.record (Event.critical "database error: failed to create LabelItems table"))
  else
  -- Create Media table
  let (query, w) := QSqlQuery.exec self.database w sqlCreateMedia
  if !query.active then
    (false, w.record (Event.critical "database error: failed to create Media table"))
  else
  -- Create Labels table
  let (query, w) := QSqlQuery.exec self.database w sqlCreateLabels
  if !query.active then
    (false, w.record (Event.critical "database error: failed to create Labels table"))
  else
  -- Insert Info table
  let (query, w) := QSqlQuery.exec self.database w (sqlInsertInfo projectName)
  if !query.active then
    (false, w.record (Event.critical "database error: failed to insert into Info table"))
  else
  -- All good
  (true, w)

/-- The constructor `DataContext::DataContext(path)`. A constructor returns no value: the
caller receives the object, and the outcome of `create` is dropped. -/
def DataContext.new (w : World) (path : String) : DataContext × World :=
  -- Check SQLite is available
  if QSqlDatabase.isDriverAvailable w "SQLITE" then
    ({ database := QSqlDatabase.invalid }, w.record (Event.critical "error: sqlite is not available"))
  else
  -- Create database as SQLite database
  let (database, w) := QSqlDatabase.addDatabase w "QSQLITE"
  -- Check if file already existed
  let fileExists := (w.files path).isSome
  -- Open file
  let database := database.setDatabaseName path
  let (database, w) := database.open w
  -- Create if it didn't exist
  if !fileExists then
    let fileName := QFileInfo.fileName path
    let fileName :=
      if QString.contains fileName '.' then QString.left fileName (QString.lastIndexOf fileName '.')
      else fileName
    let (_, w) := DataContext.create { database := database } w fileName
    ({ database := database }, w)
  else
    ({ database := database }, w)

/-- The function `DataContext::isOpen`. -/
def DataContext.isOpen (self : DataContext) : Bool :=
  self.database.isOpen

/-- The function `DataContext::updateItem`. The result is `none` when `std::bad_cast` escapes,
and otherwise the returned boolean with the world after the call. -/
def DataContext.updateItem (self : DataContext) (w : World) (item : Item) (projectVersion : Int) :
    Option (Bool × World) :=
  -- Get item type
  let type := if item.isRequirement then ItemType.TypeRequirement else ItemType.TypeSolution
  -- Check if already pending version
  let (_, w) := QSqlQuery.exec self.database w (sqlPendingVersion projectVersion item.id)
  -- If we already have a pending version, just update values
  if type = ItemType.TypeRequirement then
    match item.castRequirement with
    | none => none
    | some req =>
      let (query, w) := QSqlQuery.exec self.database w (sqlUpdateRequirement req)
      -- Execute
      some (query.active, w)
  else
  -- Check if it already exists
  let (_, w) := QSqlQuery.exec self.database w sqlSelectById
  -- Prepare new version
  if type = ItemType.TypeRequirement then
    match item.castRequirement with
    | none => none
    | some req =>
      let (_, w) := QSqlQuery.exec self.database w (sqlInsertRequirement req)
      -- Fetch id for newly added requirement
      let (query, w) := QSqlQuery.exec self.database w sqlLatestRequirement
      let (_, query) := query.next
      let latest := Requirement.ofQuery query
      let _newId := latest.id
      some (false, w)
  else
    some (false, w)

/-- The helper `uidExists`: run the counting query, then read field `0` of the query. The read
is done right after `exec`, with no call to `next`. -/
def uidExists (db : QSqlDatabase) (w : World) (_query : QSqlQuery) (uid : Int) : Bool × World :=
  let (query, w) := QSqlQuery.exec db w (sqlCountUid uid)
  -- If the count(*) value is above 0, uid already exists
  (decide ((query.value 0).toInt > 0), w)

/-- The `do ... while (uidExists(query, id))` loop of `DataContext::getItemUid`, bounded by
`fuel` iterations; `none` when the fuel runs out. -/
def DataContext.getItemUidLoop (self : DataContext) (query : QSqlQuery) :
    Nat → World → Option (Int × World)
  | 0, _ => none
  | fuel + 1, w =>
    let (r, w) := w.generate64
    let id := toQint64 r
    let (taken, w) := uidExists self.database w query id
    if taken then DataContext.getItemUidLoop self query fuel w else some (id, w)

/-- The function `DataContext::getItemUid`. -/
def DataContext.getItemUid (self : DataContext) (w : World) (fuel : Nat) : Option (Int × World) :=
  self.getItemUidLoop QSqlQuery.new fuel w

/-- The object built by `Project::Project`: the data context it owns. -/
structure Project where
  data : DataContext
  deriving DecidableEq, Repr

/-- The path that `Project::Project(path)` passes on: `.orq` is appended if needed. -/
def Project.dataPath (path : String) : String :=
  if !QString.endsWith path ".orq" then path ++ ".orq" else path

/-- The constructor `Project::Project(path)`. -/
def Project.new (w : World) (path : String) : Project × World :=
  -- Append .orq if needed
  let path := Project.dataPath path
  -- Create database
  let (data, w) := DataContext.new w path
  ({ data := data }, w)

/-! ## Reading a run -/

/-- The statements executed so far with their outcomes, oldest first. -/
def World.executed (w : World) : List (Stmt × Bool) :=
  w.trace.filterMap (fun e =>
    match e with
    | Event.exec stmt ok => some (stmt, ok)
    | _ => none)

/-- Names of the tables of the database at `path`; empty when there is no such file. -/
def World.tableNames (w : World) (path : String) : List String :=
  match w.files path with
  | none => []
  | some s => s.tables.map Table.name

/-- Rows of a table of the database at `path`; empty when the file or the table is missing. -/
def World.rowsOf (w : World) (path table : String) : List Row :=
  match w.files path with
  | none => []
  | some s =>
    match s.find table with
    | none => []
    | some t => t.rows

/-- The ItemVersions rows with `version = projectVersion` and `item = itemId`. -/
def World.pendingRows (w : World) (path : String) (projectVersion itemId : Int) : List Row :=
  (w.rowsOf path "ItemVersions").filter
    (fun r => r.matches [("version", Value.int projectVersion), ("item", Value.int itemId)])

/-- The nine statements of `DataContext::create`, in order, each with the message logged when
it fails. -/
def DataContext.createSteps (projectName : String) : List (Stmt × String) :=
  [ (sqlCreateInfo, "database error: failed to create Info table"),
    (sqlCreateSolutions, "database error: failed to create Solutions table"),
    (sqlCreateProjects, "database error: failed to create Projects table"),
    (sqlCreateItemVersions, "database error: failed to create ItemVersions table"),
    (sqlCreateRequirements, "database error: failed to create Requirements table"),
    (sqlCreateLabelItems, "database error: failed to create LabelItems table"),
    (sqlCreateMedia, "database error: failed to create Media table"),
    (sqlCreateLabels, "database error: failed to create Labels table"),
    (sqlInsertInfo projectName, "database error: failed to insert into Info table") ]

/-- The nine statements of `DataContext::create`, in order. -/
def DataContext.createStatements (projectName : String) : List Stmt :=
  (DataContext.createSteps projectName).map Prod.fst

/-- Execute checked steps in order, logging and stopping at the first failure: this is how
`DataContext::create` proceeds, written as a recursion over the list of steps. -/
def runChecked (db : QSqlDatabase) : List (Stmt × String) → World → Bool × World
  | [], w => (true, w)
  | (stmt, message) :: rest, w =>
    let (query, w) := QSqlQuery.exec db w stmt
    if !query.active then (false, w.record (Event.critical message))
    else runChecked db rest w

/-- Execute statements in order on a store; `none` as soon as one fails. -/
def Store.executeAll (now : String) : Store → List Stmt → Option Store
  | s, [] => some s
  | s, stmt :: rest =>
    match s.execute now stmt with
    | none => none
    | some (s', _) => Store.executeAll now s' rest

/-! ## Sample worlds -/

/-- A machine with stock Qt: the SQLite driver is installed under its name `QSQLITE`, there is
no file yet, and nothing fails. -/
def World.stock : World :=
  { drivers := fun name => name == "QSQLITE"
    files := fun _ => none
    canOpen := fun _ => true
    faults := []
    now := "2024-01-01 00:00:00"
    random := fun _ => 7
    drawn := 0
    trace := [] }

/-- A machine on which Qt has no SQL driver at all. -/
def World.noDriver : World :=
  { World.stock with drivers := fun _ => false }

/-- A machine on which a driver is registered under every name, `SQLITE` included. -/
def World.everyDriver : World :=
  { World.stock with drivers := fun _ => true }

/-- The world after the constructor has created `demo.orq` on a stock machine. -/
def World.created : World :=
  (DataContext.new World.stock "demo.orq").2

/-- The data context of `demo.orq` on a stock machine. -/
def DataContext.demo : DataContext :=
  (DataContext.new World.stock "demo.orq").1

/-- The store of `demo.orq` right after its creation. -/
def Store.created : Store :=
  (World.created.files "demo.orq").getD { tables := [] }

/-- Run statements on a connection one after the other, to prepare a store. -/
def World.seed (w : World) (db : QSqlDatabase) (stmts : List Stmt) : World :=
  stmts.foldl (fun v stmt => (v.run db stmt).2) w

/-- The store of `demo.orq` with two Requirements (ids 1 and 2) and one pending version, of
Requirement 1 under project version 1. -/
def World.twoRequirements : World :=
  World.created.seed DataContext.demo.database
    [ Stmt.insert "Requirements" ["uid", "description", "rationale", "fitCriterion"]
        [Value.int 101, Value.text "A", Value.text "why A", Value.text "fit A"],
      Stmt.insert "Requirements" ["uid", "description", "rationale", "fitCriterion"]
        [Value.int 102, Value.text "B", Value.text "why B", Value.text "fit B"],
      Stmt.insert "ItemVersions" ["version", "item", "type"]
        [Value.int 1, Value.int 1, Value.int 0] ]

/-- The store of `demo.orq` with one Solution (id 1) and its pending version under project
version 1. -/
def World.oneSolution : World :=
  World.created.seed DataContext.demo.database
    [ Stmt.insert "Solutions" ["uid", "description", "link"]
        [Value.int 201, Value.text "S", Value.text "http://s"],
      Stmt.insert "ItemVersions" ["version", "item", "type"]
        [Value.int 1, Value.int 1, Value.int 1] ]

/-- A Requirement value with the given id and texts. -/
def Requirement.sample (id : Int) (description : String) : Requirement :=
  { id := id, uid := 123, parent := 7, label := 0, description := description,
    rationale := "why " ++ description, fitCriterion := "fit " ++ description }

/-- A Solution value with the given id and texts. -/
def Solution.sample (id : Int) (description : String) : Solution :=
  { id := id, uid := 456, parent := 1, label := 0, description := description,
    link := "http://" ++ description }

/-- The world after a call of `updateItem`; the world before when `std::bad_cast` escapes. -/
def World.afterUpdate (self : DataContext) (w : World) (item : Item) (projectVersion : Int) :
    World :=
  match self.updateItem w item projectVersion with
  | some r => r.2
  | none => w

/-- The world after a call of `getItemUid`; the world before when the fuel runs out. -/
def World.afterUid (self : DataContext) (w : World) (fuel : Nat) : World :=
  match self.getItemUid w fuel with
  | some r => r.2
  | none => w

/-- The store of `demo.orq` with one Requirement whose uid is `7`, the value the random
generator of the sample worlds yields. -/
def World.uidTaken : World :=
  World.created.seed DataContext.demo.database
    [ Stmt.insert "Requirements" ["uid", "description"] [Value.int 7, Value.text "A"] ]

/-- A file `demo.orq` that was not made by this program: it has a Requirements table with one
row, and no ItemVersions table. -/
def World.onlyRequirements : World :=
  { World.created with
    files := fun p =>
      if p = "demo.orq" then
        Store.executeAll "2024-01-01 00:00:00" { tables := [] }
          [ sqlCreateRequirements,
            Stmt.insert "Requirements" ["uid", "description"] [Value.int 101, Value.text "A"] ]
      else none }

/-! ## Strings and paths -/


theorem QString.endsWith_iff (s ending : String) :
    QString.endsWith s ending = true ↔ ∃ stem : String, s = stem ++ ending := by
  unfold QString.endsWith
  rw [List.isSuffixOf_iff_suffix]
  constructor
  · rintro ⟨t, ht⟩
    refine ⟨String.mk t, ?_⟩
    apply String.ext
    simp [String.data_append, ht]
  · rintro ⟨stem, rfl⟩
    exact ⟨stem.data, by simp [String.data_append]⟩

/-- C8: the path that `Project::Project(p)` hands to the `DataContext` ends with `.orq`; it is
`p` itself when `p` already ends with `.orq` and `p ++ ".orq"` otherwise; the normalisation is
idempotent. -/
theorem Project.dataPath_normalises (w : World) (p : String) :
    (Project.new w p).1.data = (DataContext.new w (Project.dataPath p)).1 ∧
    (Project.new w p).2 = (DataContext.new w (Project.dataPath p)).2 ∧
    (∃ stem : String, Project.dataPath p = stem ++ ".orq") ∧
    (((∃ stem : String, p = stem ++ ".orq") ∧ Project.dataPath p = p) ∨
      ((¬ ∃ stem : String, p = stem ++ ".orq") ∧ Project.dataPath p = p ++ ".orq")) ∧
    Project.dataPath (Project.dataPath p) = Project.dataPath p := by
  have key : ∀ q : String, QString.endsWith q ".orq" = true → Project.dataPath q = q := by
    intro q hq
    simp [Project.dataPath, hq]
  have hends : QString.endsWith (Project.dataPath p) ".orq" = true := by
    by_cases h : QString.endsWith p ".orq" = true
    · rw [key p h]; exact h
    · have : Project.dataPath p = p ++ ".orq" := by simp [Project.dataPath, h]
      rw [this]
      exact (QString.endsWith_iff _ _).2 ⟨p, rfl⟩
  refine ⟨rfl, rfl, (QString.endsWith_iff _ _).1 hends, ?_, key _ hends⟩
  by_cases h : QString.endsWith p ".orq" = true
  · exact Or.inl ⟨(QString.endsWith_iff _ _).1 h, key p h⟩
  · refine Or.inr ⟨fun hex => h ((QString.endsWith_iff _ _).2 hex), ?_⟩
    simp [Project.dataPath, h]

/-! ## Executing statements -/


theorem World.executed_record_exec (w : World) (stmt : Stmt) (ok : Bool) :
    (w.record (Event.exec stmt ok)).executed = w.executed ++ [(stmt, ok)] := by
  simp [World.executed, World.record, List.filterMap_append]

theorem World.executed_record_critical (w : World) (message : String) :
    (w.record (Event.critical message)).executed = w.executed := by
  simp [World.executed, World.record, List.filterMap_append]

/-- What `run` does to the files: it fails and leaves every file as it was, or it succeeds, on
an open connection, with the result of `Store.execute` written back to the file. -/
theorem World.run_spec (w : World) (db : QSqlDatabase) (stmt : Stmt) :
    ((w.run db stmt).1 = none ∧ (w.run db stmt).2.files = w.files) ∨
    (∃ s s' rows, db.opened = true ∧ w.files db.databaseName = some s ∧
      s.execute w.now stmt = some (s', rows) ∧ (w.run db stmt).1 = some rows ∧
      (w.run db stmt).2.files = fun p => if p = db.databaseName then some s' else w.files p) := by
  unfold World.run
  by_cases hopen : db.opened = true
  · rcases hfaults : w.faults with _ | ⟨b, rest⟩ <;>
      rcases hfile : w.files db.databaseName with _ | s
    · left; simp [hopen, hfile]
    · rcases hexec : s.execute w.now stmt with _ | r
      · left; simp [hopen, hfile, hexec]
      · right
        exact ⟨s, r.1, r.2, hopen, rfl, hexec, by simp [hopen, hfile, hexec, World.setFile]⟩
    · left; cases b <;> simp [hopen, hfile]
    · rcases hexec : s.execute w.now stmt with _ | r
      · left; cases b <;> simp [hopen, hfile, hexec]
      · cases b
        · right
          exact ⟨s, r.1, r.2, hopen, rfl, hexec, by simp [hopen, hfile, hexec, World.setFile]⟩
        · left; simp [hopen]
  · left; simp [hopen]

/-- The part of the world `run` leaves alone. -/
theorem World.run_frame (w : World) (db : QSqlDatabase) (stmt : Stmt) :
    (w.run db stmt).2.trace = w.trace ∧ (w.run db stmt).2.now = w.now ∧
      (w.run db stmt).2.drivers = w.drivers ∧ (w.run db stmt).2.canOpen = w.canOpen ∧
      (w.run db stmt).2.random = w.random ∧ (w.run db stmt).2.drawn = w.drawn := by
  unfold World.run
  by_cases hopen : db.opened = true
  · rcases hfaults : w.faults with _ | ⟨b, rest⟩ <;>
      rcases hfile : w.files db.databaseName with _ | s
    · simp [hopen, hfile]
    · rcases hexec : s.execute w.now stmt with _ | r <;> simp [hopen, hfile, hexec, World.setFile]
    · cases b <;> simp [hopen, hfile]
    · rcases hexec : s.execute w.now stmt with _ | r <;> cases b <;>
        simp [hopen, hfile, hexec, World.setFile]
  · simp [hopen]

theorem QSqlQuery.exec_eq (db : QSqlDatabase) (w : World) (stmt : Stmt) :
    QSqlQuery.exec db w stmt =
      match (w.run db stmt).1 with
      | some rows =>
        ({ active := true, rows := rows, position := -1 },
          (w.run db stmt).2.record (Event.exec stmt true))
      | none =>
        ({ active := false, rows := [], position := -1 },
          (w.run db stmt).2.record (Event.exec stmt false)) := by
  unfold QSqlQuery.exec
  rcases h : w.run db stmt with ⟨_ | rows, w1⟩ <;> rfl

/-- What `exec` does: it fails and leaves every file as it was, or it succeeds, on an open
connection, with the result of `Store.execute` written back to the file. -/
theorem QSqlQuery.exec_spec (db : QSqlDatabase) (w : World) (stmt : Stmt) :
    ((QSqlQuery.exec db w stmt).1 = { active := false, rows := [], position := -1 } ∧
      (QSqlQuery.exec db w stmt).2.files = w.files) ∨
    (∃ s s' rows, db.opened = true ∧ w.files db.databaseName = some s ∧
      s.execute w.now stmt = some (s', rows) ∧
      (QSqlQuery.exec db w stmt).1 = { active := true, rows := rows, position := -1 } ∧
      (QSqlQuery.exec db w stmt).2.files =
        fun p => if p = db.databaseName then some s' else w.files p) := by
  rw [QSqlQuery.exec_eq]
  rcases World.run_spec w db stmt with ⟨h1, h2⟩ | ⟨s, s', rows, ho, hf, he, h1, h2⟩
  · left; simp [h1, h2, World.record]
  · right; exact ⟨s, s', rows, ho, hf, he, by simp [h1], by simp [h1, h2, World.record]⟩

/-- The part of the world `exec` leaves alone, and its entry in the trace. -/
theorem QSqlQuery.exec_frame (db : QSqlDatabase) (w : World) (stmt : Stmt) :
    (QSqlQuery.exec db w stmt).2.trace =
        w.trace ++ [Event.exec stmt (QSqlQuery.exec db w stmt).1.active] ∧
      (QSqlQuery.exec db w stmt).2.now = w.now ∧
      (QSqlQuery.exec db w stmt).2.drivers = w.drivers ∧
      (QSqlQuery.exec db w stmt).2.canOpen = w.canOpen ∧
      (QSqlQuery.exec db w stmt).2.random = w.random ∧
      (QSqlQuery.exec db w stmt).2.drawn = w.drawn := by
  rw [QSqlQuery.exec_eq]
  obtain ⟨h1, h2, h3, h4, h5, h6⟩ := World.run_frame w db stmt
  rcases h : (w.run db stmt).1 with _ | rows <;> simp [World.record, h1, h2, h3, h4, h5, h6]

theorem QSqlQuery.exec_executed (db : QSqlDatabase) (w : World) (stmt : Stmt) :
    (QSqlQuery.exec db w stmt).2.executed =
      w.executed ++ [(stmt, (QSqlQuery.exec db w stmt).1.active)] := by
  simp [World.executed, (QSqlQuery.exec_frame db w stmt).1, List.filterMap_append]

/-! ## Schema creation and the constructor -/


theorem DataContext.create_eq_runChecked (self : DataContext) (w : World) (projectName : String) :
    self.create w projectName =
      runChecked self.database (DataContext.createSteps projectName) w := rfl

/-- A checked run either succeeds, having executed every step with success, or fails at some
step `k`, having executed the `k` steps before it with success, step `k` without, and nothing
after it. In both cases the file of the connection holds what the statements that succeeded
made of it, nothing is undone, and the other files are as they were. -/
theorem runChecked_spec (db : QSqlDatabase) (steps : List (Stmt × String)) (w : World) :
    ((runChecked db steps w).1 = true ∧
      (runChecked db steps w).2.executed = w.executed ++ steps.map (fun s => (s.1, true)) ∧
      (runChecked db steps w).2.files db.databaseName =
        (w.files db.databaseName).bind
          (fun s => Store.executeAll w.now s (steps.map Prod.fst)) ∧
      ∀ p, p ≠ db.databaseName → (runChecked db steps w).2.files p = w.files p) ∨
    ((runChecked db steps w).1 = false ∧
      ∃ k stmt, (steps.map Prod.fst).get? k = some stmt ∧
        (runChecked db steps w).2.executed =
          w.executed ++ ((steps.take k).map (fun s => (s.1, true)) ++ [(stmt, false)]) ∧
        (runChecked db steps w).2.files db.databaseName =
          (w.files db.databaseName).bind
            (fun s => Store.executeAll w.now s ((steps.map Prod.fst).take k)) ∧
        ∀ p, p ≠ db.databaseName → (runChecked db steps w).2.files p = w.files p) := by
  induction steps generalizing w with
  | nil =>
    left
    refine ⟨by simp [runChecked], by simp [runChecked], ?_, by simp [runChecked]⟩
    cases hf : w.files db.databaseName <;> simp [runChecked, hf, Store.executeAll]
  | cons step rest ih =>
    obtain ⟨stmt, message⟩ := step
    have hex := QSqlQuery.exec_executed db w stmt
    have hnow := (QSqlQuery.exec_frame db w stmt).2.1
    rcases QSqlQuery.exec_spec db w stmt with ⟨h1, h2⟩ | ⟨s, s1, rows, _, hf, he, h1, h2⟩
    · have hact : (QSqlQuery.exec db w stmt).1.active = false := by rw [h1]
      right
      refine ⟨by simp [runChecked, hact], 0, stmt, by simp, ?_, ?_, ?_⟩
      · simp [runChecked, hact, World.executed_record_critical, hex]
      · have hfiles : (runChecked db ((stmt, message) :: rest) w).2.files = w.files := by
          simp [runChecked, hact, World.record, h2]
        rw [hfiles]
        cases hf : w.files db.databaseName <;> simp [Store.executeAll]
      · intro p _
        simp [runChecked, hact, World.record, h2]
    · have hact : (QSqlQuery.exec db w stmt).1.active = true := by rw [h1]
      have hfile1 : (QSqlQuery.exec db w stmt).2.files db.databaseName = some s1 := by
        rw [h2]; simp
      have hother : ∀ p, p ≠ db.databaseName →
          (QSqlQuery.exec db w stmt).2.files p = w.files p := by
        intro p hp
        rw [h2]; simp [hp]
      rcases ih (QSqlQuery.exec db w stmt).2 with ⟨i1, i2, i3, i4⟩ | ⟨i1, k, st, hk, i2, i3, i4⟩
      · left
        refine ⟨by simp [runChecked, hact, i1], ?_, ?_, ?_⟩
        · simp [runChecked, hact, i2, hex]
        · simp only [runChecked, hact, Bool.not_true, Bool.false_eq_true, if_false]
          rw [i3, hfile1, hnow, hf]
          simp [Store.executeAll, he]
        · intro p hp
          simp only [runChecked, hact, Bool.not_true, Bool.false_eq_true, if_false]
          rw [i4 p hp, hother p hp]
      · right
        refine ⟨by simp [runChecked, hact, i1], k + 1, st, by simpa using hk, ?_, ?_, ?_⟩
        · simp [runChecked, hact, i2, hex]
        · simp only [runChecked, hact, Bool.not_true, Bool.false_eq_true, if_false]
          rw [i3, hfile1, hnow, hf]
          simp [Store.executeAll, he]
        · intro p hp
          simp only [runChecked, hact, Bool.not_true, Bool.false_eq_true, if_false]
          rw [i4 p hp, hother p hp]

/-- A checked run that succeeds on an open file leaves in it the store obtained by executing
the statements in order. -/
theorem runChecked_files (db : QSqlDatabase) (steps : List (Stmt × String)) (w : World)
    (s : Store) (hfile : w.files db.databaseName = some s)
    (hok : (runChecked db steps w).1 = true) :
    ∃ s', Store.executeAll w.now s (steps.map Prod.fst) = some s' ∧
      (runChecked db steps w).2.files db.databaseName = some s' := by
  induction steps generalizing w s with
  | nil => exact ⟨s, by simp [Store.executeAll], by simpa [runChecked] using hfile⟩
  | cons step rest ih =>
    obtain ⟨stmt, message⟩ := step
    rcases QSqlQuery.exec_spec db w stmt with ⟨h1, _⟩ | ⟨s0, s1, rows, _, hf, he, h1, h2⟩
    · simp [runChecked, h1] at hok
    · have hs : s0 = s := by
        rw [hfile] at hf
        exact (Option.some.inj hf).symm
      subst hs
      have hnow := (QSqlQuery.exec_frame db w stmt).2.1
      have hok' : (runChecked db rest (QSqlQuery.exec db w stmt).2).1 = true := by
        simpa [runChecked, h1] using hok
      obtain ⟨s', hs1, hs2⟩ := ih (QSqlQuery.exec db w stmt).2 s1 (by simp [h2]) hok'
      refine ⟨s', ?_, ?_⟩
      · simp [Store.executeAll, he]
        rw [← hnow]
        exact hs1
      · simpa [runChecked, h1] using hs2

theorem QString.lastIndexOfFrom_spec (c : Char) (l : List Char) (i found : Int) :
    (c ∉ l ∧ QString.lastIndexOfFrom c l i found = found) ∨
    (∃ a b, l = a ++ c :: b ∧ c ∉ b ∧ QString.lastIndexOfFrom c l i found = i + a.length) := by
  induction l generalizing i found with
  | nil => left; simp [QString.lastIndexOfFrom]
  | cons x xs ih =>
    rcases ih (i + 1) (if x = c then i else found) with ⟨h1, h2⟩ | ⟨a, b, h1, h2, h3⟩
    · by_cases hx : x = c
      · right
        refine ⟨[], xs, by simp [hx], h1, ?_⟩
        simp only [hx, if_true] at h2
        simp [QString.lastIndexOfFrom, h2, hx]
      · left
        refine ⟨by simp [h1, Ne.symm hx], ?_⟩
        simp only [hx, if_false] at h2
        simp [QString.lastIndexOfFrom, h2, hx]
    · right
      refine ⟨x :: a, b, by simp [h1], h2, ?_⟩
      simp [QString.lastIndexOfFrom, h3]
      omega

/-- The file name of a path is the path itself when it has no `/`, and otherwise what follows
its last `/`. -/
theorem QFileInfo.fileName_spec (path : String) :
    ('/' ∉ path.data ∧ QFileInfo.fileName path = path) ∨
    (∃ dir, path.data = dir ++ '/' :: (QFileInfo.fileName path).data ∧
      '/' ∉ (QFileInfo.fileName path).data) := by
  unfold QFileInfo.fileName QString.lastIndexOf
  rcases QString.lastIndexOfFrom_spec '/' path.data 0 (-1) with ⟨h1, h2⟩ | ⟨a, b, h1, h2, h3⟩
  · left
    exact ⟨h1, by simp [h2]⟩
  · right
    refine ⟨a, ?_, ?_⟩
    · rw [h3]
      have : ((0 : Int) + (a.length : Int) + 1).toNat = a.length + 1 := by omega
      rw [this]
      simp only [h1]
      simp
    · rw [h3]
      have : ((0 : Int) + (a.length : Int) + 1).toNat = a.length + 1 := by omega
      rw [this]
      simp only [h1]
      simpa using h2

/-- The project name derived from a file name: the file name itself when it has no `.`, and
otherwise what precedes its last `.`. -/
theorem QString.stripExtension_spec (fileName : String) :
    ('.' ∉ fileName.data ∧
      (if QString.contains fileName '.' then
          QString.left fileName (QString.lastIndexOf fileName '.')
        else fileName) = fileName) ∨
    (∃ ext, '.' ∉ ext ∧
      fileName.data =
        (if QString.contains fileName '.' then
            QString.left fileName (QString.lastIndexOf fileName '.')
          else fileName).data ++ '.' :: ext) := by
  unfold QString.lastIndexOf QString.contains
  rcases QString.lastIndexOfFrom_spec '.' fileName.data 0 (-1) with ⟨h1, h2⟩ | ⟨a, b, h1, h2, h3⟩
  · left
    exact ⟨h1, by simp [h1]⟩
  · right
    refine ⟨b, h2, ?_⟩
    have hmem : '.' ∈ fileName.data := by rw [h1]; simp
    have hlen : fileName.data.length = a.length + 1 + b.length := by rw [h1]; simp; omega
    have htake : List.take a.length fileName.data = a := by rw [h1]; simp
    have hc : fileName.data.contains '.' = true := by simp [hmem]
    have hnot : ¬ ((0 : Int) + (a.length : Int) < 0 ∨
        (fileName.data.length : Int) ≤ 0 + (a.length : Int)) := by
      rw [hlen]; push_cast; omega
    have hnat : ((0 : Int) + (a.length : Int)).toNat = a.length := by omega
    simp only [hc, if_true, h3, QString.left, if_neg hnot, hnat, htake]
    exact h1

theorem World.executed_record_addDatabase (w : World) (type : String) :
    (w.record (Event.addDatabase type)).executed = w.executed := by
  simp [World.executed, World.record, List.filterMap_append]

theorem World.executed_record_openDatabase (w : World) (path : String) (ok : Bool) :
    (w.record (Event.openDatabase path ok)).executed = w.executed := by
  simp [World.executed, World.record, List.filterMap_append]

/-- The nine statements, run in order on an empty store, succeed and leave the eight tables
and one Info row. -/
theorem Store.executeAll_createStatements (now projectName : String) :
    ∃ s, Store.executeAll now { tables := [] } (DataContext.createStatements projectName) = some s ∧
      s.tables.map Table.name =
        ["Info", "Solutions", "Projects", "ItemVersions", "Requirements", "LabelItems", "Media",
          "Labels"] ∧
      (s.find "Info").map Table.rows =
        some [[("id", Value.int 1), ("version", Value.int 1), ("name", Value.text projectName),
          ("created", Value.text now)]] :=
  ⟨_, rfl, rfl, rfl⟩

/-- C7: for a path whose file already exists the constructor does not run schema creation: it
executes no statement, and every file keeps its content; in particular no table is created in
the file at `path` and its Info rows are the same. -/
theorem DataContext.new_existing_file (w : World) (path : String) (s : Store)
    (hfile : w.files path = some s) :
    (DataContext.new w path).2.executed = w.executed ∧
    (DataContext.new w path).2.files = w.files ∧
    (DataContext.new w path).2.tableNames path = w.tableNames path ∧
    (DataContext.new w path).2.rowsOf path "Info" = w.rowsOf path "Info" := by
  have key : (DataContext.new w path).2.executed = w.executed ∧
      (DataContext.new w path).2.files = w.files := by
    unfold DataContext.new
    by_cases hguard : QSqlDatabase.isDriverAvailable w "SQLITE" = true
    · simp only [hguard, if_true]
      exact ⟨World.executed_record_critical _ _, rfl⟩
    · simp only [hguard, Bool.false_eq_true, if_false, QSqlDatabase.addDatabase,
        QSqlDatabase.setDatabaseName, QSqlDatabase.open]
      by_cases hopen : (w.drivers "QSQLITE" && (w.record (Event.addDatabase "QSQLITE")).canOpen path)
          = true
      · simp only [hopen, if_true]
        have hsome : ((w.record (Event.addDatabase "QSQLITE")).files path).isSome = true := by
          simp [World.record, hfile]
        simp only [hsome, Bool.not_true, Bool.false_eq_true, if_false]
        refine ⟨by simp [World.executed, World.record, World.setFile, List.filterMap_append], ?_⟩
        funext p
        by_cases hp : p = path
        · simp [World.record, World.setFile, hp, hfile]
        · simp [World.record, World.setFile, hp]
      · simp only [hopen, Bool.false_eq_true, if_false]
        have hsome : ((w.record (Event.addDatabase "QSQLITE")).files path).isSome = true := by
          simp [World.record, hfile]
        simp only [hsome, Bool.not_true, Bool.false_eq_true, if_false]
        exact ⟨by simp [World.executed, World.record, List.filterMap_append], by simp [World.record]⟩
  exact ⟨key.1, key.2, by simp [World.tableNames, key.2], by simp [World.rowsOf, key.2]⟩

/-- C7, on the file the constructor has just created: constructing again changes nothing. -/
theorem DataContext.new_existing_file_witness :
    World.created.files "demo.orq" = some Store.created ∧
    (DataContext.new World.created "demo.orq").2.executed = World.created.executed ∧
    (DataContext.new World.created "demo.orq").2.files = World.created.files ∧
    (DataContext.new World.created "demo.orq").2.tableNames "demo.orq" =
      World.created.tableNames "demo.orq" ∧
    (DataContext.new World.created "demo.orq").2.rowsOf "demo.orq" "Info" =
      World.created.rowsOf "demo.orq" "Info" :=
  ⟨rfl, DataContext.new_existing_file World.created "demo.orq" Store.created rfl⟩

theorem runChecked_file_exists (db : QSqlDatabase) (step : Stmt × String)
    (rest : List (Stmt × String)) (w : World)
    (hok : (runChecked db (step :: rest) w).1 = true) :
    ∃ s, w.files db.databaseName = some s := by
  obtain ⟨stmt, message⟩ := step
  rcases QSqlQuery.exec_spec db w stmt with ⟨h1, _⟩ | ⟨s0, _, _, _, hf, _, _, _⟩
  · simp [runChecked, h1] at hok
  · exact ⟨s0, hf⟩

/-- The constructor on a path without a file, once past the driver check: it registers and
opens a connection named after the path, then calls `create` with the stripped file name. At
that point the file is either still missing (the connection could not be opened) or empty. -/
theorem DataContext.new_missing_file (w : World) (path : String)
    (hfile : w.files path = none)
    (hguard : QSqlDatabase.isDriverAvailable w "SQLITE" = false) :
    ∃ db w2, DataContext.new w path =
        ({ database := db },
          (DataContext.create { database := db } w2
            (if QString.contains (QFileInfo.fileName path) '.' then
              QString.left (QFileInfo.fileName path)
                (QString.lastIndexOf (QFileInfo.fileName path) '.')
            else QFileInfo.fileName path)).2) ∧
      db.databaseName = path ∧ w2.executed = w.executed ∧ w2.now = w.now ∧
      (w2.files path = none ∨ w2.files path = some { tables := [] }) := by
  unfold DataContext.new
  simp only [hguard, Bool.false_eq_true, if_false, QSqlDatabase.addDatabase,
    QSqlDatabase.setDatabaseName, QSqlDatabase.open]
  have hnone : ((w.record (Event.addDatabase "QSQLITE")).files path).isSome = false := by
    simp [World.record, hfile]
  by_cases hopen : (w.drivers "QSQLITE" && (w.record (Event.addDatabase "QSQLITE")).canOpen path)
      = true
  · simp only [hopen, if_true, hnone, Bool.not_false]
    refine ⟨_, _, rfl, rfl, ?_, rfl, Or.inr ?_⟩
    · simp [World.executed, World.record, World.setFile, List.filterMap_append]
    · simp [World.record, World.setFile, hfile]
  · simp only [hopen, Bool.false_eq_true, if_false, hnone, Bool.not_false, if_true]
    refine ⟨_, _, rfl, rfl, ?_, rfl, Or.inl ?_⟩
    · simp [World.executed, World.record, List.filterMap_append]
    · simp [World.record, hfile]

/-- Past the driver check, the constructor does on a path without a file what is expected of
it: when every statement it executes succeeds, the file at `path` ends up with exactly the
eight tables Info, Solutions, Projects, ItemVersions, Requirements, LabelItems, Media, Labels
and exactly one Info row; the name in that row is the file name of the path (what follows its
last `/`) up to but excluding its last `.`, or the whole file name when it has no `.`. -/
theorem DataContext.new_creates_schema (w : World) (path : String)
    (hfile : w.files path = none)
    (hguard : QSqlDatabase.isDriverAvailable w "SQLITE" = false)
    (hok : ∀ log, (DataContext.new w path).2.executed = w.executed ++ log →
      ∀ stmt, (stmt, false) ∉ log) :
    ∃ projectName : String,
      (DataContext.new w path).2.tableNames path =
        ["Info", "Solutions", "Projects", "ItemVersions", "Requirements", "LabelItems", "Media",
          "Labels"] ∧
      (DataContext.new w path).2.rowsOf path "Info" =
        [[("id", Value.int 1), ("version", Value.int 1), ("name", Value.text projectName),
          ("created", Value.text w.now)]] ∧
      (('.' ∉ (QFileInfo.fileName path).data ∧ projectName = QFileInfo.fileName path) ∨
        (∃ ext, '.' ∉ ext ∧ (QFileInfo.fileName path).data = projectName.data ++ '.' :: ext)) ∧
      (('/' ∉ path.data ∧ QFileInfo.fileName path = path) ∨
        (∃ dir, path.data = dir ++ '/' :: (QFileInfo.fileName path).data ∧
          '/' ∉ (QFileInfo.fileName path).data)) := by
  obtain ⟨db, w2, hnew, hname, hexec, hnow, hfiles⟩ :=
    DataContext.new_missing_file w path hfile hguard
  generalize hpn : (if QString.contains (QFileInfo.fileName path) '.' then
      QString.left (QFileInfo.fileName path) (QString.lastIndexOf (QFileInfo.fileName path) '.')
    else QFileInfo.fileName path) = projectName at hnew
  have hstore : ∃ s, (DataContext.new w path).2.files path = some s ∧
      s.tables.map Table.name =
        ["Info", "Solutions", "Projects", "ItemVersions", "Requirements", "LabelItems", "Media",
          "Labels"] ∧
      (s.find "Info").map Table.rows =
        some [[("id", Value.int 1), ("version", Value.int 1), ("name", Value.text projectName),
          ("created", Value.text w.now)]] := by
    rw [hnew] at hok ⊢
    simp only [DataContext.create_eq_runChecked] at hok ⊢
    rcases runChecked_spec db (DataContext.createSteps projectName) w2 with
      ⟨h1, _⟩ | ⟨_, k, st, _, h2, _⟩
    · obtain ⟨s, hs⟩ := runChecked_file_exists db _ _ w2 h1
      rw [hname] at hs
      have hs' : s = { tables := [] } := by
        rcases hfiles with h | h
        · rw [h] at hs; cases hs
        · rw [h] at hs; exact (Option.some.inj hs).symm
      subst hs'
      obtain ⟨s', hs1, hs2⟩ :=
        runChecked_files db (DataContext.createSteps projectName) w2 _
          (by rw [hname]; exact hs) h1
      obtain ⟨s'', ht1, ht2, ht3⟩ := Store.executeAll_createStatements w2.now projectName
      have hss : s' = s'' := Option.some.inj (hs1.symm.trans ht1)
      subst hss
      rw [hname] at hs2
      rw [hnow] at ht3
      exact ⟨s', hs2, ht2, ht3⟩
    · exfalso
      rw [h2, hexec] at hok
      exact hok _ rfl st (by simp)
  obtain ⟨s, hs1, hs2, hs3⟩ := hstore
  refine ⟨projectName, ?_, ?_, ?_, QFileInfo.fileName_spec path⟩
  · simp [World.tableNames, hs1, hs2]
  · simp only [World.rowsOf, hs1]
    rcases hfind : s.find "Info" with _ | t
    · simp [hfind] at hs3
    · simp only [hfind, Option.map_some', Option.some.injEq] at hs3
      simp [hs3]
  · have hstrip := QString.stripExtension_spec (QFileInfo.fileName path)
    rw [hpn] at hstrip
    exact hstrip

/-- C5 (the code at the failing input): with no SQL driver installed, `QSQLITE` included, the
constructor does not stop at its driver check: it registers a connection, tries to open it,
and runs schema creation, whose first statement fails on the closed connection. The check
stops the constructor in the opposite case, when a driver named `SQLITE` is registered. -/
theorem DataContext.new_without_driver :
    QSqlDatabase.isDriverAvailable World.noDriver "QSQLITE" = false ∧
    (DataContext.new World.noDriver "demo.orq").2.trace =
      [Event.addDatabase "QSQLITE", Event.openDatabase "demo.orq" false,
        Event.exec sqlCreateInfo false,
        Event.critical "database error: failed to create Info table"] ∧
    (DataContext.new World.noDriver "demo.orq").1.isOpen = false ∧
    QSqlDatabase.isDriverAvailable World.everyDriver "QSQLITE" = true ∧
    (DataContext.new World.everyDriver "demo.orq").2.trace =
      [Event.critical "error: sqlite is not available"] :=
  ⟨rfl, rfl, rfl, rfl, rfl⟩

/-- The object the constructor yields does not depend on which statements fail. -/
theorem DataContext.new_object_faults (w : World) (path : String) (faults : List Bool) :
    (DataContext.new { w with faults := faults } path).1 = (DataContext.new w path).1 := by
  unfold DataContext.new
  by_cases hguard : w.drivers "SQLITE" = true
  · simp [QSqlDatabase.isDriverAvailable, hguard]
  · simp only [QSqlDatabase.isDriverAvailable, hguard, Bool.false_eq_true, if_false,
      QSqlDatabase.addDatabase, QSqlDatabase.setDatabaseName, QSqlDatabase.open, World.record]
    by_cases hopen : (w.drivers "QSQLITE" && w.canOpen path) = true
    · by_cases hfile : (w.files path).isSome = true <;> simp [hopen, hfile]
    · by_cases hfile : (w.files path).isSome = true <;> simp [hopen, hfile]

/-- C6 (amended): `create` stops at the first failure. Either all nine statements are executed
with success and `create` returns `true`, or for some `k` the first `k` statements are executed
with success, statement `k` is executed and fails, nothing is executed after it, and `create`
returns `false`; so `create` returns `true` exactly when all nine statements succeed. Nothing
is undone: after a failure at statement `k` the file of the connection holds what the first `k`
statements made of it (and the other files are as they were). The constructor drops the result
of `create`: the object it yields is the same whichever statements fail. -/
theorem DataContext.create_stops_at_first_failure (self : DataContext) (w : World)
    (projectName path : String) :
    (DataContext.createStatements projectName).length = 9 ∧
    (((self.create w projectName).1 = true ∧
        (self.create w projectName).2.executed =
          w.executed ++ (DataContext.createStatements projectName).map (fun s => (s, true)) ∧
        (self.create w projectName).2.files self.database.databaseName =
          (w.files self.database.databaseName).bind
            (fun s => Store.executeAll w.now s (DataContext.createStatements projectName)) ∧
        ∀ p, p ≠ self.database.databaseName →
          (self.create w projectName).2.files p = w.files p) ∨
      ((self.create w projectName).1 = false ∧
        ∃ k stmt, (DataContext.createStatements projectName).get? k = some stmt ∧
          (self.create w projectName).2.executed =
            w.executed ++ (((DataContext.createStatements projectName).take k).map
              (fun s => (s, true)) ++ [(stmt, false)]) ∧
          (self.create w projectName).2.files self.database.databaseName =
            (w.files self.database.databaseName).bind
              (fun s => Store.executeAll w.now s
                ((DataContext.createStatements projectName).take k)) ∧
          ∀ p, p ≠ self.database.databaseName →
            (self.create w projectName).2.files p = w.files p)) ∧
    ((self.create w projectName).1 = true ↔
      (self.create w projectName).2.executed =
        w.executed ++ (DataContext.createStatements projectName).map (fun s => (s, true))) ∧
    (∀ faults, (DataContext.new { w with faults := faults } path).1 =
      (DataContext.new w path).1) := by
  have hspec := runChecked_spec self.database (DataContext.createSteps projectName) w
  rw [← DataContext.create_eq_runChecked] at hspec
  have hst : (DataContext.createSteps projectName).map Prod.fst =
      DataContext.createStatements projectName := rfl
  have hmap : (DataContext.createSteps projectName).map (fun s => (s.1, true)) =
      (DataContext.createStatements projectName).map (fun s => (s, true)) := by
    simp [DataContext.createStatements, List.map_map, Function.comp_def]
  have htake : ∀ k, ((DataContext.createSteps projectName).take k).map (fun s => (s.1, true)) =
      ((DataContext.createStatements projectName).take k).map (fun s => (s, true)) := by
    intro k
    simp [DataContext.createStatements, List.map_take, List.map_map, Function.comp_def]
  rw [hmap, hst] at hspec
  simp only [htake] at hspec
  refine ⟨rfl, hspec, ?_, DataContext.new_object_faults w path⟩
  constructor
  · intro htrue
    rcases hspec with ⟨_, h2, _⟩ | ⟨h1, _⟩
    · exact h2
    · rw [htrue] at h1; cases h1
  · intro hall
    rcases hspec with ⟨h1, _⟩ | ⟨_, k, stmt, _, h2, _⟩
    · exact h1
    · exfalso
      rw [h2] at hall
      have hmem : (stmt, false) ∈
          (DataContext.createStatements projectName).map (fun s => (s, true)) := by
        rw [← List.append_cancel_left hall]
        simp
      simp at hmem

/-- Any of the nine statements can be the first to fail: on a stock machine, when the first
`k` statements meet no fault and statement `k` meets one, the constructor executes the first
`k` statements with success, statement `k` without, and nothing more. -/
theorem DataContext.new_fault_at (k : Nat) (hk : k < 9) :
    (DataContext.new { World.stock with faults := List.replicate k false ++ [true] }
      "demo.orq").2.executed =
      ((DataContext.createStatements "demo").take k).map (fun s => (s, true)) ++
        [((DataContext.createStatements "demo").getD k sqlCreateInfo, false)] := by
  interval_cases k <;> rfl

/-- C6 as stated fails: when the third statement of `create` fails, the two tables created
before it stay in the file, so creation is not all-or-nothing; and when the first statement
fails, the failure is logged and `create` stops, but the object the constructor yields is the
very one it yields when every statement succeeds, and it reports an open connection, so
nothing reaches the caller of the constructor. -/
theorem DataContext.new_drops_create_result :
    (DataContext.new { World.stock with faults := [false, false, true] } "demo.orq").2.executed =
      [(sqlCreateInfo, true), (sqlCreateSolutions, true), (sqlCreateProjects, false)] ∧
    (DataContext.new { World.stock with faults := [false, false, true] }
      "demo.orq").2.tableNames "demo.orq" = ["Info", "Solutions"] ∧
    (DataContext.new { World.stock with faults := [true] } "demo.orq").2.trace =
      [Event.addDatabase "QSQLITE", Event.openDatabase "demo.orq" true,
        Event.exec sqlCreateInfo false,
        Event.critical "database error: failed to create Info table"] ∧
    (DataContext.new { World.stock with faults := [true] } "demo.orq").1 =
      (DataContext.new World.stock "demo.orq").1 ∧
    (DataContext.new { World.stock with faults := [true] } "demo.orq").1.isOpen = true ∧
    (DataContext.new World.stock "demo.orq").2.executed =
      (DataContext.createStatements "demo").map (fun s => (s, true)) :=
  ⟨rfl, rfl, rfl, rfl, rfl, rfl⟩

/-! ## Updating an item -/


theorem Store.sameName_iff (a b : String) :
    Store.sameName a b = true ↔ a.data.map Char.toLower = b.data.map Char.toLower := by
  simp [Store.sameName]

theorem Store.sameName_false_iff (a b : String) :
    Store.sameName a b = false ↔ a.data.map Char.toLower ≠ b.data.map Char.toLower := by
  simp [Store.sameName]

theorem Store.find_name (s : Store) (n : String) (t : Table) (h : s.find n = some t) :
    Store.sameName t.name n = true := by
  unfold Store.find at h
  simpa using List.find?_some h

/-- Two names of the same table find the same table. -/
theorem Store.find_congr (s : Store) (a b : String) (h : Store.sameName a b = true) :
    s.find a = s.find b := by
  have hab := (Store.sameName_iff a b).1 h
  unfold Store.find
  congr 1
  funext t
  simp [Store.sameName, hab]

theorem Store.find_replace_ne (s : Store) (t : Table) (n : String)
    (h : Store.sameName n t.name = false) : (s.replace t).find n = s.find n := by
  have hnt := (Store.sameName_false_iff n t.name).1 h
  obtain ⟨tables⟩ := s
  simp only [Store.find, Store.replace]
  induction tables with
  | nil => rfl
  | cons u us ih =>
    simp only [List.map_cons, List.find?_cons]
    have h2 : Store.sameName t.name n = false :=
      (Store.sameName_false_iff _ _).2 (fun e => hnt e.symm)
    cases h1 : Store.sameName u.name t.name
    · simp only [Bool.false_eq_true, if_false]
      cases hun : Store.sameName u.name n
      · exact ih
      · rfl
    · have hut := (Store.sameName_iff _ _).1 h1
      have h3 : Store.sameName u.name n = false :=
        (Store.sameName_false_iff _ _).2 (fun e => hnt (e.symm.trans hut))
      simp only [if_true, h2, h3]
      exact ih

theorem Store.find_replace_self (s : Store) (t u : Table) (h : s.find t.name = some u) :
    (s.replace t).find t.name = some t := by
  have hself : Store.sameName t.name t.name = true := (Store.sameName_iff _ _).2 rfl
  obtain ⟨tables⟩ := s
  simp only [Store.find, Store.replace] at h ⊢
  induction tables with
  | nil => simp at h
  | cons v vs ih =>
    simp only [List.map_cons, List.find?_cons] at h ⊢
    cases hv : Store.sameName v.name t.name
    · simp only [hv, Bool.false_eq_true, if_false] at h ⊢
      exact ih h
    · simp [hself]

/-- Statements that only read leave the store as it is. -/
theorem Store.execute_select (s s' : Store) (now table : String)
    (conds : List (String × Value)) (order : Option String) (rows : List Row)
    (h : s.execute now (Stmt.select table conds order) = some (s', rows)) : s' = s := by
  simp only [Store.execute] at h
  split at h
  · cases h
  · split at h
    · split at h
      · cases h; rfl
      · split at h
        · cases h; rfl
        · cases h
    · cases h

theorem Store.execute_countUnion (s s' : Store) (now column table1 table2 : String)
    (value : Value) (rows : List Row)
    (h : s.execute now (Stmt.countUnion column table1 table2 value) = some (s', rows)) :
    s' = s := by
  simp only [Store.execute] at h
  split at h
  · split at h
    · cases h; rfl
    · cases h
  · cases h

theorem Store.execute_malformed (s : Store) (now sql : String) :
    s.execute now (Stmt.malformed sql) = none := rfl

/-- An `update` changes the rows of its table and nothing else. -/
theorem Store.execute_update (s s' : Store) (now table : String)
    (sets conds : List (String × Value)) (rows : List Row)
    (h : s.execute now (Stmt.update table sets conds) = some (s', rows)) :
    (∀ n, Store.sameName n table = false → s'.find n = s.find n) ∧
    ∃ t, s.find table = some t ∧ t.hasColumns (sets.map Prod.fst) = true ∧
      s'.find table = some { t with
        rows := t.rows.map (fun r => if r.matches conds then t.updatedRow sets r else r) } := by
  simp only [Store.execute] at h
  split at h
  · cases h
  · rename_i t hfind
    split at h
    · rename_i hcols
      have hs : s' = s.replace { t with
          rows := t.rows.map (fun r => if r.matches conds then t.updatedRow sets r else r) } := by
        cases h; rfl
      have hname := Store.find_name s table t hfind
      have hcongr := Store.find_congr s t.name table hname
      subst hs
      refine ⟨fun n hn => Store.find_replace_ne s _ n ?_, t, hfind, ?_, ?_⟩
      · have h1 := (Store.sameName_false_iff _ _).1 hn
        have h2 := (Store.sameName_iff _ _).1 hname
        exact (Store.sameName_false_iff _ _).2 (fun e => h1 (e.trans h2))
      · simp only [Bool.and_eq_true] at hcols
        exact hcols.1
      · have := Store.find_replace_self s { t with
          rows := t.rows.map (fun r => if r.matches conds then t.updatedRow sets r else r) } t
          (by rw [hcongr]; exact hfind)
        rw [← Store.find_congr _ t.name table hname]
        exact this
    · cases h

theorem List.lookup_map_name (columns : List Column) (f : String → Value) (n : String)
    (h : n ∈ columns.map Column.name) :
    List.lookup n (columns.map (fun c => (c.name, f c.name))) = some (f n) := by
  induction columns with
  | nil => simp at h
  | cons c cs ih =>
    simp only [List.map_cons, List.lookup_cons]
    by_cases hc : n = c.name
    · subst hc; simp
    · have : (n == c.name) = false := by simp [hc]
      simp only [this]
      apply ih
      simpa [hc] using h

/-- After an update, a column named by `sets` holds the new value. -/
theorem Table.get_updatedRow (t : Table) (sets : List (String × Value)) (r : Row)
    (n : String) (v : Value) (hcols : t.hasColumns (sets.map Prod.fst) = true)
    (hset : sets.lookup n = some v) : (t.updatedRow sets r).get n = v := by
  have hmem : n ∈ sets.map Prod.fst := by
    clear hcols
    induction sets with
    | nil => simp at hset
    | cons p ps ih =>
      obtain ⟨k, x⟩ := p
      by_cases hk : n = k
      · simp [hk]
      · have : (n == k) = false := by simp [hk]
        simp only [List.lookup_cons, this] at hset
        simp [ih hset]
  have hcol : n ∈ t.columns.map Column.name := by
    simp only [Table.hasColumns, List.all_eq_true] at hcols
    have := hcols n hmem
    simpa [Table.columnNames] using this
  have := List.lookup_map_name t.columns
    (fun k => match sets.lookup k with
      | some v => v
      | none => r.get k) n hcol
  have hget : (t.updatedRow sets r).get n =
      (List.lookup n (t.columns.map (fun c => (c.name,
        (fun k => match sets.lookup k with
          | some v => v
          | none => r.get k) c.name)))).getD Value.null := rfl
  rw [hget, this]
  simp [hset]

/-- A statement that leaves the store alone leaves the files alone. -/
theorem QSqlQuery.exec_files_of_readonly (db : QSqlDatabase) (w : World) (stmt : Stmt)
    (h : ∀ (s s1 : Store) (rows : List Row), s.execute w.now stmt = some (s1, rows) → s1 = s) :
    (QSqlQuery.exec db w stmt).2.files = w.files := by
  rcases QSqlQuery.exec_spec db w stmt with ⟨_, h2⟩ | ⟨s, s', rows, _, hf, he, _, h2⟩
  · exact h2
  · rw [h2]
    funext p
    by_cases hp : p = db.databaseName
    · simp [hp, hf, h s s' rows he]
    · simp [hp]

theorem QSqlQuery.exec_select_files (db : QSqlDatabase) (w : World) (table : String)
    (conds : List (String × Value)) (order : Option String) :
    (QSqlQuery.exec db w (Stmt.select table conds order)).2.files = w.files :=
  QSqlQuery.exec_files_of_readonly db w _
    (fun s s' rows h => Store.execute_select s s' w.now table conds order rows h)

theorem QSqlQuery.exec_countUnion_files (db : QSqlDatabase) (w : World)
    (column table1 table2 : String) (value : Value) :
    (QSqlQuery.exec db w (Stmt.countUnion column table1 table2 value)).2.files = w.files :=
  QSqlQuery.exec_files_of_readonly db w _
    (fun s s' rows h => Store.execute_countUnion s s' w.now column table1 table2 value rows h)

theorem QSqlQuery.exec_malformed_files (db : QSqlDatabase) (w : World) (sql : String) :
    (QSqlQuery.exec db w (Stmt.malformed sql)).2.files = w.files :=
  QSqlQuery.exec_files_of_readonly db w _ (fun s s' rows h => by
    rw [Store.execute_malformed] at h; cases h)

theorem World.rowsOf_congr (w w' : World) (h : w'.files = w.files) (path table : String) :
    w'.rowsOf path table = w.rowsOf path table := by
  simp [World.rowsOf, h]

/-- An `update` leaves the rows of every other table, in every file, as they were. -/
theorem QSqlQuery.exec_update_rowsOf_ne (db : QSqlDatabase) (w : World) (table : String)
    (sets conds : List (String × Value)) (path other : String)
    (hne : Store.sameName other table = false) :
    (QSqlQuery.exec db w (Stmt.update table sets conds)).2.rowsOf path other =
      w.rowsOf path other := by
  rcases QSqlQuery.exec_spec db w (Stmt.update table sets conds) with
    ⟨_, h2⟩ | ⟨s, s', rows, _, hf, he, _, h2⟩
  · exact World.rowsOf_congr _ _ h2 _ _
  · obtain ⟨hother, _⟩ := Store.execute_update s s' w.now table sets conds rows he
    simp only [World.rowsOf, h2]
    by_cases hp : path = db.databaseName
    · simp [hp, hf, hother other hne]
    · simp [hp]

/-- An `update` without `where` clause that succeeds rewrites every row of its table. -/
theorem QSqlQuery.exec_update_all_rows (db : QSqlDatabase) (w : World) (table : String)
    (sets : List (String × Value))
    (hactive : (QSqlQuery.exec db w (Stmt.update table sets [])).1.active = true) :
    ∃ t : Table, t.hasColumns (sets.map Prod.fst) = true ∧
      w.rowsOf db.databaseName table = t.rows ∧
      (QSqlQuery.exec db w (Stmt.update table sets [])).2.rowsOf db.databaseName table =
        t.rows.map (t.updatedRow sets) := by
  rcases QSqlQuery.exec_spec db w (Stmt.update table sets []) with
    ⟨h1, _⟩ | ⟨s, s', rows, _, hf, he, _, h2⟩
  · rw [h1] at hactive; cases hactive
  · obtain ⟨_, t, hfind, hcols, hfind'⟩ := Store.execute_update s s' w.now table sets [] rows he
    refine ⟨t, hcols, by simp [World.rowsOf, hf, hfind], ?_⟩
    simp [World.rowsOf, h2, hfind', Row.matches]

/-- An `update` keeps the number of rows of its table. -/
theorem QSqlQuery.exec_update_length (db : QSqlDatabase) (w : World) (table : String)
    (sets conds : List (String × Value)) (path : String) :
    ((QSqlQuery.exec db w (Stmt.update table sets conds)).2.rowsOf path table).length =
      (w.rowsOf path table).length := by
  rcases QSqlQuery.exec_spec db w (Stmt.update table sets conds) with
    ⟨_, h2⟩ | ⟨s, s', rows, _, hf, he, _, h2⟩
  · rw [World.rowsOf_congr _ _ h2]
  · obtain ⟨_, t, hfind, _, hfind'⟩ := Store.execute_update s s' w.now table sets conds rows he
    simp only [World.rowsOf, h2]
    by_cases hp : path = db.databaseName
    · simp [hp, hf, hfind, hfind']
    · simp [hp]

/-- The function `updateItem` on a Requirement: the lookup, whose outcome is not consulted, then
the update of Requirements, whose outcome is returned. -/
theorem DataContext.updateItem_requirement (self : DataContext) (w : World) (r : Requirement)
    (v : Int) :
    self.updateItem w (Item.requirement r) v =
      some ((QSqlQuery.exec self.database
          (QSqlQuery.exec self.database w (sqlPendingVersion v r.id)).2
          (sqlUpdateRequirement r)).1.active,
        (QSqlQuery.exec self.database
          (QSqlQuery.exec self.database w (sqlPendingVersion v r.id)).2
          (sqlUpdateRequirement r)).2) := rfl

/-- The function `updateItem` on a Solution: two statements that only read, and `false`. -/
theorem DataContext.updateItem_solution (self : DataContext) (w : World) (s : Solution)
    (v : Int) :
    self.updateItem w (Item.solution s) v =
      some (false,
        (QSqlQuery.exec self.database
          (QSqlQuery.exec self.database w (sqlPendingVersion v s.id)).2 sqlSelectById).2) := rfl

/-- On a Solution, `updateItem` returns `false` and changes no file. -/
theorem DataContext.updateItem_solution_frame (self : DataContext) (w : World) (s : Solution)
    (v : Int) :
    ∃ w', self.updateItem w (Item.solution s) v = some (false, w') ∧ w'.files = w.files := by
  refine ⟨_, DataContext.updateItem_solution self w s v, ?_⟩
  unfold sqlSelectById sqlPendingVersion
  rw [QSqlQuery.exec_malformed_files, QSqlQuery.exec_select_files]

/-- On a Requirement, `updateItem` touches only the rows of the Requirements table, keeps
their number, and, when it returns `true`, has written the three texts into every one of
them. -/
theorem DataContext.updateItem_requirement_frame (self : DataContext) (w : World)
    (r : Requirement) (v : Int) :
    ∃ ok w', self.updateItem w (Item.requirement r) v = some (ok, w') ∧
      (∀ path table, Store.sameName table "Requirements" = false →
        w'.rowsOf path table = w.rowsOf path table) ∧
      (∀ path, (w'.rowsOf path "Requirements").length = (w.rowsOf path "Requirements").length) ∧
      (ok = true → ∀ row ∈ w'.rowsOf self.database.databaseName "Requirements",
        row.get "description" = Value.text r.description ∧
        row.get "rationale" = Value.text r.rationale ∧
        row.get "fitCriterion" = Value.text r.fitCriterion) := by
  refine ⟨_, _, DataContext.updateItem_requirement self w r v, ?_, ?_, ?_⟩
  · intro path table hne
    unfold sqlUpdateRequirement sqlPendingVersion
    rw [QSqlQuery.exec_update_rowsOf_ne _ _ _ _ _ _ _ hne]
    exact World.rowsOf_congr _ _ (QSqlQuery.exec_select_files _ _ _ _ _) _ _
  · intro path
    unfold sqlUpdateRequirement sqlPendingVersion
    rw [QSqlQuery.exec_update_length]
    rw [World.rowsOf_congr _ _ (QSqlQuery.exec_select_files _ _ _ _ _)]
  · intro hactive row hrow
    unfold sqlUpdateRequirement at hactive hrow
    obtain ⟨t, hcols, _, hrows⟩ := QSqlQuery.exec_update_all_rows _ _ _ _ hactive
    rw [hrows] at hrow
    obtain ⟨r0, _, rfl⟩ := List.mem_map.1 hrow
    exact ⟨Table.get_updatedRow t _ r0 _ _ hcols (by simp [List.lookup]),
      Table.get_updatedRow t _ r0 _ _ hcols (by simp [List.lookup]),
      Table.get_updatedRow t _ r0 _ _ hcols (by simp [List.lookup])⟩

/-- Where the pending version is already in the store, two calls do amend in place: for a
Requirement with id `i` and a store holding exactly one ItemVersions row with `version = v` and
`item = i`, two calls of `updateItem` under `v` for that item, the second of which returns
`true`, leave exactly one such ItemVersions row, keep the number of Requirements rows, and
leave in every Requirements row with `id = i` the texts of the second call. -/
theorem DataContext.updateItem_twice_amends (self : DataContext) (w w1 w2 : World)
    (r1 r2 : Requirement) (v : Int) (ok1 : Bool)
    (hid : r2.id = r1.id)
    (hpending : (w.pendingRows self.database.databaseName v r1.id).length = 1)
    (h1 : self.updateItem w (Item.requirement r1) v = some (ok1, w1))
    (h2 : self.updateItem w1 (Item.requirement r2) v = some (true, w2)) :
    (w2.pendingRows self.database.databaseName v r2.id).length = 1 ∧
    (w2.rowsOf self.database.databaseName "Requirements").length =
      (w.rowsOf self.database.databaseName "Requirements").length ∧
    ∀ row ∈ w2.rowsOf self.database.databaseName "Requirements",
      row.get "id" = Value.int r2.id →
        row.get "description" = Value.text r2.description ∧
        row.get "rationale" = Value.text r2.rationale ∧
        row.get "fitCriterion" = Value.text r2.fitCriterion := by
  obtain ⟨oka, wa, ha, ha1, ha2, _⟩ := DataContext.updateItem_requirement_frame self w r1 v
  obtain ⟨okb, wb, hb, hb1, hb2, hb3⟩ := DataContext.updateItem_requirement_frame self w1 r2 v
  rw [h1] at ha
  rw [h2] at hb
  obtain ⟨rfl, rfl⟩ := Prod.mk.inj (Option.some.inj ha)
  obtain ⟨rfl, rfl⟩ := Prod.mk.inj (Option.some.inj hb)
  have hne : Store.sameName "ItemVersions" "Requirements" = false := by decide
  refine ⟨?_, ?_, fun row hrow _ => hb3 rfl row hrow⟩
  · unfold World.pendingRows at hpending ⊢
    rw [hb1 _ _ hne, ha1 _ _ hne, hid]
    exact hpending
  · rw [hb2, ha2]

/-- C1 (the code at the failing input): on the store the constructor has just created, two
calls of `updateItem` for a Requirement with id 1 under project version 1, with description
`D` then `D2`, both return `true` and leave no ItemVersions row for `(1, 1)` and no
Requirements row at all; and on the store with one Solution and its pending version, two calls
for that Solution, with description `S2` then `S3`, both return `false` and leave its
description `S`. -/
theorem DataContext.updateItem_twice_no_row :
    (DataContext.demo.updateItem World.created
      (Item.requirement (Requirement.sample 1 "D")) 1).map Prod.fst = some true ∧
    (DataContext.demo.updateItem
      (World.afterUpdate DataContext.demo World.created
        (Item.requirement (Requirement.sample 1 "D")) 1)
      (Item.requirement (Requirement.sample 1 "D2")) 1).map Prod.fst = some true ∧
    ((World.afterUpdate DataContext.demo
        (World.afterUpdate DataContext.demo World.created
          (Item.requirement (Requirement.sample 1 "D")) 1)
        (Item.requirement (Requirement.sample 1 "D2")) 1).pendingRows "demo.orq" 1 1).length = 0 ∧
    (World.afterUpdate DataContext.demo
        (World.afterUpdate DataContext.demo World.created
          (Item.requirement (Requirement.sample 1 "D")) 1)
        (Item.requirement (Requirement.sample 1 "D2")) 1).rowsOf "demo.orq" "Requirements" = [] ∧
    (World.oneSolution.pendingRows "demo.orq" 1 1).length = 1 ∧
    (DataContext.demo.updateItem World.oneSolution
      (Item.solution (Solution.sample 1 "S2")) 1).map Prod.fst = some false ∧
    (DataContext.demo.updateItem
      (World.afterUpdate DataContext.demo World.oneSolution
        (Item.solution (Solution.sample 1 "S2")) 1)
      (Item.solution (Solution.sample 1 "S3")) 1).map Prod.fst = some false ∧
    ((World.afterUpdate DataContext.demo
        (World.afterUpdate DataContext.demo World.oneSolution
          (Item.solution (Solution.sample 1 "S2")) 1)
        (Item.solution (Solution.sample 1 "S3")) 1).rowsOf "demo.orq" "Solutions").map
          (fun row => (row.get "id", row.get "description")) =
      [(Value.int 1, Value.text "S")] ∧
    ((World.afterUpdate DataContext.demo
        (World.afterUpdate DataContext.demo World.oneSolution
          (Item.solution (Solution.sample 1 "S2")) 1)
        (Item.solution (Solution.sample 1 "S3")) 1).pendingRows "demo.orq" 1 1).length = 1 :=
  ⟨rfl, rfl, rfl, rfl, rfl, rfl, rfl, rfl, rfl⟩

/-- C2 (the code at the failing input): on the store the constructor has just created, where
ItemVersions has no row for `(1, 0)`, `updateItem` for a new Requirement returns `true` and
adds no Requirements row and no ItemVersions row; for a new Solution it returns `false` and
adds no Solutions row and no ItemVersions row. -/
theorem DataContext.updateItem_adds_nothing :
    World.created.pendingRows "demo.orq" 1 0 = [] ∧
    (DataContext.demo.updateItem World.created
      (Item.requirement (Requirement.sample 0 "D")) 1).map Prod.fst = some true ∧
    (World.afterUpdate DataContext.demo World.created
      (Item.requirement (Requirement.sample 0 "D")) 1).rowsOf "demo.orq" "Requirements" = [] ∧
    (World.afterUpdate DataContext.demo World.created
      (Item.requirement (Requirement.sample 0 "D")) 1).rowsOf "demo.orq" "ItemVersions" = [] ∧
    (DataContext.demo.updateItem World.created
      (Item.solution (Solution.sample 0 "S")) 1).map Prod.fst = some false ∧
    (World.afterUpdate DataContext.demo World.created
      (Item.solution (Solution.sample 0 "S")) 1).rowsOf "demo.orq" "Solutions" = [] ∧
    (World.afterUpdate DataContext.demo World.created
      (Item.solution (Solution.sample 0 "S")) 1).rowsOf "demo.orq" "ItemVersions" = [] :=
  ⟨rfl, rfl, rfl, rfl, rfl, rfl, rfl⟩

/-- C9 (the code at the failing input): when the ItemVersions lookup fails and the update of
Requirements succeeds, `updateItem` goes on past the failed lookup and returns `true`. This
happens when the lookup fails for a reason outside the store, and when the file has no
ItemVersions table; in the second case the Requirements row is overwritten. -/
theorem DataContext.updateItem_ignores_lookup_failure :
    (DataContext.demo.updateItem { World.created with faults := [true] }
      (Item.requirement (Requirement.sample 0 "D")) 1).map
        (fun r => (r.1, r.2.executed.drop World.created.executed.length)) =
      some (true,
        [(sqlPendingVersion 1 0, false),
          (sqlUpdateRequirement (Requirement.sample 0 "D"), true)]) ∧
    World.onlyRequirements.tableNames "demo.orq" = ["Requirements"] ∧
    (DataContext.demo.updateItem World.onlyRequirements
      (Item.requirement (Requirement.sample 1 "D")) 1).map
        (fun r => (r.1, r.2.executed.drop World.onlyRequirements.executed.length)) =
      some (true,
        [(sqlPendingVersion 1 1, false),
          (sqlUpdateRequirement (Requirement.sample 1 "D"), true)]) ∧
    ((World.afterUpdate DataContext.demo World.onlyRequirements
      (Item.requirement (Requirement.sample 1 "D")) 1).rowsOf "demo.orq" "Requirements").map
        (fun row => (row.get "id", row.get "description")) =
      [(Value.int 1, Value.text "D")] :=
  ⟨rfl, rfl, rfl, rfl⟩

/-- C10 (the code at the failing input): with a pending version of Requirement 1, `updateItem`
for Requirement 1 overwrites Requirement 2 as well; with a pending version of Solution 1,
`updateItem` for Solution 1 returns `false` and leaves the Solutions row as it was. -/
theorem DataContext.updateItem_overwrites_other_rows :
    (World.twoRequirements.pendingRows "demo.orq" 1 1).length = 1 ∧
    (World.twoRequirements.rowsOf "demo.orq" "Requirements").map
        (fun row => (row.get "id", row.get "description")) =
      [(Value.int 1, Value.text "A"), (Value.int 2, Value.text "B")] ∧
    (DataContext.demo.updateItem World.twoRequirements
      (Item.requirement (Requirement.sample 1 "D2")) 1).map Prod.fst = some true ∧
    ((World.afterUpdate DataContext.demo World.twoRequirements
      (Item.requirement (Requirement.sample 1 "D2")) 1).rowsOf "demo.orq" "Requirements").map
        (fun row => (row.get "id", row.get "description")) =
      [(Value.int 1, Value.text "D2"), (Value.int 2, Value.text "D2")] ∧
    (World.oneSolution.pendingRows "demo.orq" 1 1).length = 1 ∧
    (DataContext.demo.updateItem World.oneSolution
      (Item.solution (Solution.sample 1 "S2")) 1).map Prod.fst = some false ∧
    ((World.afterUpdate DataContext.demo World.oneSolution
      (Item.solution (Solution.sample 1 "S2")) 1).rowsOf "demo.orq" "Solutions").map
        (fun row => (row.get "id", row.get "description", row.get "link")) =
      [(Value.int 1, Value.text "S", Value.text "http://s")] :=
  ⟨rfl, rfl, rfl, rfl, rfl, rfl, rfl⟩

/-! ## Generating a uid -/


/-- The helper `uidExists` reports no match whatever the store holds: it reads the count
while the cursor is still before the first row, where `value` yields an invalid variant and
`toInt` turns that into `0`. -/
theorem uidExists_reports_false (db : QSqlDatabase) (w : World) (query : QSqlQuery)
    (uid : Int) : (uidExists db w query uid).1 = false := by
  unfold uidExists
  rw [QSqlQuery.exec_eq]
  rcases (w.run db (sqlCountUid uid)).1 with _ | rows <;>
    simp [QSqlQuery.value, QVariant.toInt]

/-- The helper `uidExists` only reads: files and random generator are as before. -/
theorem uidExists_frame (db : QSqlDatabase) (w : World) (query : QSqlQuery) (uid : Int) :
    (uidExists db w query uid).2.files = w.files ∧
    (uidExists db w query uid).2.random = w.random ∧
    (uidExists db w query uid).2.drawn = w.drawn := by
  unfold uidExists sqlCountUid
  exact ⟨QSqlQuery.exec_countUnion_files _ _ _ _ _ _,
    (QSqlQuery.exec_frame _ _ _).2.2.2.2.1, (QSqlQuery.exec_frame _ _ _).2.2.2.2.2⟩

/-- With fuel for one iteration `getItemUid` returns, and what it returns is the first value
drawn: the loop never goes round, since `uidExists` reports no match. -/
theorem DataContext.getItemUid_returns (self : DataContext) (w : World) (fuel : Nat) :
    (self.getItemUid w (fuel + 1)).map Prod.fst = some (toQint64 (w.random w.drawn % 2 ^ 64)) := by
  simp [DataContext.getItemUid, DataContext.getItemUidLoop, World.generate64,
    uidExists_reports_false]

/-- C3 (the code at the failing input): on a store whose one Requirement has uid `7`, with a
random source that yields `7`, the counting query does find the uid (its result row holds the
count `1`), but `uidExists` reads the query before moving to that row and reports no match;
`getItemUid` returns `7`, the stored uid, and a second call returns `7` again. -/
theorem DataContext.getItemUid_returns_stored_uid :
    (World.uidTaken.rowsOf "demo.orq" "Requirements").map (fun row => row.get "uid") =
      [Value.int 7] ∧
    toQint64 (World.uidTaken.random World.uidTaken.drawn % 2 ^ 64) = 7 ∧
    (QSqlQuery.exec DataContext.demo.database World.uidTaken (sqlCountUid 7)).1 =
      { active := true, rows := [[("count(*)", Value.int 1)]], position := -1 } ∧
    (uidExists DataContext.demo.database World.uidTaken QSqlQuery.new 7).1 = false ∧
    (DataContext.demo.getItemUid World.uidTaken 1).map Prod.fst = some 7 ∧
    (DataContext.demo.getItemUid (World.afterUid DataContext.demo World.uidTaken 1) 1).map
      Prod.fst = some 7 :=
  ⟨rfl, rfl, rfl, rfl, rfl, rfl⟩

end orq
